import Mathlib

/-!
Shallow embedding of the `art-engine/app.py` generator: the layer-catalog
loader `join_layers` (asset discovery, sentinel append for optional layers,
candidate/weight alignment, weight normalization), the metadata emitter
`create_metadata`, the image compositor `create_image`, and the orchestrator
`run` (dedup loop over drawn combinations plus the optional post-processing
collaborators).  Randomness (`random.choices`) is modelled as an oracle: the
orchestrator consumes a stream of drawn combinations.  Machine integers are
`Int`/`Nat`; Python `int(x)` on an exact quotient is truncation toward zero
(`Int.tdiv`); fallible operations (`Image.open` on the `'None'` sentinel,
an exhausted randomness stream) return `Except`.
-/

namespace ArtEngine

/-- A file path as the loader sees it: the containing directory's name
(`Path.parent.name`), the file stem (`Path.stem`) and the extension with its
dot (`Path.suffix`). -/
structure AssetPath where
  parent : String
  stem : String
  suffix : String
deriving DecidableEq, Repr

/-- One entry of a directory listing (`Path.iterdir()` result), with the
`is_file()` flag. -/
structure DirEntry where
  path : AssetPath
  isFile : Bool
deriving DecidableEq, Repr

/-- The raster-extension allow-list of `join_layers`. -/
def imageSuffixes : List String := [".png", ".jpg", ".jpeg"]

/-- Code-point lexicographic comparison of character lists, the order Python
uses to compare path strings in `sorted(...)`. -/
def lexLe : List Char → List Char → Bool
  | [], _ => true
  | _ :: _, [] => false
  | a :: as, b :: bs =>
    if a.val < b.val then true
    else if b.val < a.val then false
    else lexLe as bs

/-- Sort key of an asset: its path string. -/
def assetKey (p : AssetPath) : List Char :=
  (p.parent ++ "/" ++ p.stem ++ p.suffix).data

/-- Stable insertion of one asset into a key-sorted list. -/
def insertAsset (a : AssetPath) : List AssetPath → List AssetPath
  | [] => [a]
  | b :: rest =>
    if lexLe (assetKey a) (assetKey b) then a :: b :: rest
    else b :: insertAsset a rest

/-- Stable sort by path string, the embedding of Python `sorted(...)` on
paths. -/
def sortAssets : List AssetPath → List AssetPath
  | [] => []
  | a :: rest => insertAsset a (sortAssets rest)

/-- `sorted([trait for trait in dir.iterdir() if trait.is_file() and
trait.suffix in ['.png', '.jpg', '.jpeg']])`. -/
def listImages (listing : List DirEntry) : List AssetPath :=
  sortAssets ((listing.filter
    (fun e => e.isFile && imageSuffixes.contains e.path.suffix)).map
      (fun e => e.path))

/-- A per-layer trait choice: a concrete asset, or the string sentinel
`'None'` appended for non-required layers. -/
inductive TraitChoice where
  | asset (p : AssetPath)
  | noneTrait
deriving DecidableEq, Repr

/-- One sub-type group of a nested layer: its name, the directory listing of
its folder, and its declared rarities. -/
structure TypeGroup where
  typeName : String
  listing : List DirEntry
  rarities : List Int
deriving DecidableEq, Repr

/-- One entry of `config['layers']`, together with the directory listing of
its asset folder. -/
structure LayerConf where
  name : String
  rarities : List Int
  required : Bool
  types : Option (List TypeGroup)
  listing : List DirEntry
deriving DecidableEq, Repr

/-- The candidate assets gathered by `join_layers` before the sentinel step:
for a nested layer the concatenation of each sub-type's sorted image files in
declaration order, for a flat layer the layer folder's sorted image files. -/
def rawCandidates (lc : LayerConf) : List AssetPath :=
  match lc.types with
  | some tgs => tgs.foldl (fun acc tg => acc ++ listImages tg.listing) []
  | none => listImages lc.listing

/-- The rarity weights gathered by `join_layers` before the sentinel step:
concatenated sub-type rarities for a nested layer, `layer['rarities']` for a
flat layer. -/
def rawRarities (lc : LayerConf) : List Int :=
  match lc.types with
  | some tgs => tgs.foldl (fun acc tg => acc ++ tg.rarities) []
  | none => lc.rarities

/-- `all_layers` after the optional-layer step: for a non-required layer the
string `'None'` is appended as an extra candidate. -/
def sentinelCandidates (lc : LayerConf) : List TraitChoice :=
  let base := (rawCandidates lc).map TraitChoice.asset
  if lc.required then base else base ++ [TraitChoice.noneTrait]

/-- `all_rarities` after the optional-layer step: for a non-required layer
the weight `100 - sum(all_rarities)` is appended, with no clamping. -/
def sentinelRarities (lc : LayerConf) : List Int :=
  if lc.required then rawRarities lc
  else rawRarities lc ++ [100 - (rawRarities lc).sum]

/-- The mismatch repair of `join_layers`: pad the weights with zeros when the
candidates outnumber them, truncate them when they outnumber the
candidates. -/
def alignedRarities (lc : LayerConf) : List Int :=
  if (sentinelCandidates lc).length = (sentinelRarities lc).length then
    sentinelRarities lc
  else if (sentinelRarities lc).length < (sentinelCandidates lc).length then
    sentinelRarities lc
      ++ List.replicate
          ((sentinelCandidates lc).length - (sentinelRarities lc).length) 0
  else (sentinelRarities lc).take (sentinelCandidates lc).length

/-- Idealization of Python `int((r / total) * 100)`: the exact quotient
truncated toward zero.  The source evaluates the expression in IEEE-754
double arithmetic, whose result can land one below this exact value (for
example `int((29 / 50) * 100)` is 57 while the exact quotient is 58), so
the numeric values this function produces are not relied on by any theorem
below — only the shape of the normalization step (one output weight per
input weight) is. -/
def pyScale (r total : Int) : Int := Int.tdiv (r * 100) total

/-- The normalization step of `join_layers`: a no-op when the weights sum to
100 (an exact integer test in the source), otherwise every weight is
rescaled by `int((r / total) * 100)` — here the idealized `pyScale`; see its
comment for the float caveat. -/
def normalizeRarities (rs : List Int) : List Int :=
  if rs.sum = 100 then rs
  else rs.map (fun r => pyScale r rs.sum)

/-- The candidate/weight lists `join_layers` hands to `random.choices` for
one layer. -/
def loadLayer (lc : LayerConf) : List TraitChoice × List Int :=
  (sentinelCandidates lc, normalizeRarities (alignedRarities lc))

/-- The value of the `layer['rarities']` list object after one `join_layers`
pass over a layer.  For a flat layer the loader binds that list by reference
(`all_rarities = layer['rarities']`), so the in-place `append` of the
sentinel weight and the in-place `extend` of the zero padding land in the
configuration's stored list; the truncation slice and the normalization
comprehension rebind the local name and leave the stored list alone.  For a
nested layer the loader builds a fresh list and the stored lists are
untouched. -/
def storedRaritiesAfter (lc : LayerConf) : List Int :=
  match lc.types with
  | some _ => lc.rarities
  | none =>
    if (sentinelRarities lc).length < (sentinelCandidates lc).length then
      sentinelRarities lc
        ++ List.replicate
            ((sentinelCandidates lc).length - (sentinelRarities lc).length) 0
    else sentinelRarities lc

/-- The run configuration fields the engine reads from the YAML document. -/
structure RunConfig where
  amount : Nat
  idFromOne : Bool
  tokenPref : String
  description : String
  uriPref : String
  drawBackground : Bool
  canvasWidth : Nat
  canvasHeight : Nat
  backgroundColor : String
  richMetadata : Bool
  paintswapMetadata : Bool
  layers : List LayerConf
deriving Repr

/-- A full multi-layer draw: one `join_layers` result, the tuple of per-layer
trait choices. -/
abbrev Combination := List TraitChoice

/-- `join_layers` for a whole config, with the weighted draw supplied as an
oracle `pick` standing for `random.choices(all_layers, weights=all_rarities)[0]`. -/
def joinLayers (cfg : RunConfig)
    (pick : List TraitChoice → List Int → TraitChoice) : Combination :=
  cfg.layers.map (fun lc => pick (loadLayer lc).1 (loadLayer lc).2)

/-- One entry of the metadata `attributes` list. -/
structure AttributeEntry where
  trait_type : String
  value : String
  sub_value : String
deriving DecidableEq, Repr

/-- The JSON document `create_metadata` writes for one edition. -/
structure MetadataRecord where
  name : String
  description : String
  image : String
  edition : Nat
  attributes : List AttributeEntry
deriving DecidableEq, Repr

/-- `create_metadata`: builds the metadata record for one edition.  The
attributes loop zips the drawn layers with the configured layers and keeps
one entry per non-sentinel choice, recording the layer's declared name, the
chosen file's parent-directory name and its stem. -/
def create_metadata (cfg : RunConfig) (edition : Nat)
    (finalLayers : Combination) : MetadataRecord :=
  { name := cfg.tokenPref ++ " #" ++ toString edition
    description := cfg.description
    image := cfg.uriPref ++ "baseURI/" ++ toString edition ++ ".png"
    edition := edition
    attributes := (finalLayers.zip cfg.layers).filterMap (fun pr =>
      match pr.1 with
      | TraitChoice.noneTrait => none
      | TraitChoice.asset p =>
        some { trait_type := pr.2.name, value := p.parent, sub_value := p.stem }) }

/-- An RGBA image term: a fresh canvas, a decoded asset
(`Image.open(p).convert('RGBA')`), or an alpha-composite of two images. -/
inductive PILImage where
  | newRGBA (w h : Nat) (color : String)
  | opened (p : AssetPath)
  | composite (base overlay : PILImage)
deriving DecidableEq, Repr

/-- `Image.open(x).convert('RGBA')` on a trait choice: the string `'None'` is
not a readable file, so opening the sentinel raises. -/
def openConvert : TraitChoice → Except String PILImage
  | TraitChoice.asset p => Except.ok (PILImage.opened p)
  | TraitChoice.noneTrait => Except.error "FileNotFoundError: None"

/-- The overlay loop of `create_image`: composite each file that is not the
`'None'` sentinel onto the accumulated canvas, in order. -/
def compositeLoop (base : PILImage) : List TraitChoice → PILImage
  | [] => base
  | TraitChoice.noneTrait :: rest => compositeLoop base rest
  | TraitChoice.asset p :: rest =>
    compositeLoop (PILImage.composite base (PILImage.opened p)) rest

/-- `create_image`: with `draw_background` a fresh canvas receives every
layer as an overlay; without it the first layer is opened as the base canvas
(no sentinel check there) and the remaining layers are the overlays. -/
def create_image (cfg : RunConfig) (finalLayers : Combination) :
    Except String PILImage :=
  if cfg.drawBackground then
    Except.ok (compositeLoop
      (PILImage.newRGBA cfg.canvasWidth cfg.canvasHeight cfg.backgroundColor)
      finalLayers)
  else
    match finalLayers with
    | [] => Except.error "IndexError: final_layers is empty"
    | first :: rest =>
      match openConvert first with
      | Except.error e => Except.error e
      | Except.ok base => Except.ok (compositeLoop base rest)

/-- The decoded overlay images of the non-sentinel choices of a combination,
in layer order (the spec-side description of what the overlay loop
composites). -/
def overlayImages (l : Combination) : List PILImage :=
  l.filterMap (fun c =>
    match c with
    | TraitChoice.asset p => some (PILImage.opened p)
    | TraitChoice.noneTrait => none)

/-- The orchestrator's mutable state: the DNA set of accepted combinations
(in acceptance order), the edition counter, and the artifact files written so
far, keyed by edition number. -/
structure RunState where
  dnaSet : List Combination
  edition : Nat
  imageFiles : List (Nat × PILImage)
  jsonFiles : List (Nat × MetadataRecord)
deriving DecidableEq, Repr

/-- The initial edition counter of `run`: 1 with `id_from_one`, else 0. -/
def startEdition (cfg : RunConfig) : Nat := if cfg.idFromOne then 1 else 0

/-- The loop bound of `run`: `amount + 1` with `id_from_one`, else
`amount`. -/
def desiredAmount (cfg : RunConfig) : Nat :=
  if cfg.idFromOne then cfg.amount + 1 else cfg.amount

/-- The `while edition < desired_amount` loop of `run`, consuming the stream
of drawn combinations (successive `join_layers` results).  A draw already in
the DNA set is discarded whole — no artifact write, no counter increment —
and the loop re-runs the full draw by moving to the next stream element.  An
accepted draw writes its JSON and image artifacts, enters the DNA set, and
increments the edition.  An exhausted stream before the target models the
unbounded-retry divergence; a compositor failure aborts the run. -/
def runLoop (cfg : RunConfig) (desired : Nat) :
    List Combination → RunState → Except String RunState
  | [], st =>
    if st.edition < desired then
      Except.error "randomness exhausted before reaching the desired amount"
    else Except.ok st
  | d :: rest, st =>
    if st.edition < desired then
      if d ∈ st.dnaSet then runLoop cfg desired rest st
      else
        let md := create_metadata cfg st.edition d
        match create_image cfg d with
        | Except.error e => Except.error e
        | Except.ok img =>
          runLoop cfg desired rest
            { dnaSet := st.dnaSet ++ [d]
              edition := st.edition + 1
              imageFiles := st.imageFiles ++ [(st.edition, img)]
              jsonFiles := st.jsonFiles ++ [(st.edition, md)] }
    else Except.ok st

/-- The state `run` starts its main loop from. -/
def initState (cfg : RunConfig) : RunState :=
  { dnaSet := [], edition := startEdition cfg, imageFiles := [], jsonFiles := [] }

/-- The main loop of `run`, from the initial state. -/
def runMain (cfg : RunConfig) (draws : List Combination) :
    Except String RunState :=
  runLoop cfg (desiredAmount cfg) draws (initState cfg)

/-- Modelled from the spec: the `utils.rarity_rank` collaborator (its module
is not under `src/`; only its call site is).  Per the spec, it computes
harmonic-mean rarity scores from the rich-metadata output and "fails with a
'missing rich metadata' condition if rich-metadata was not produced first" —
in the code that failure is the `FileNotFoundError` the caller catches. -/
def rrCalculateMean (richProduced : Bool) (amount lastEdition : Nat) :
    Except String Unit :=
  if richProduced then Except.ok () else Except.error "FileNotFoundError"

/-- The instructional message `run` prints when the rarity-rank collaborator
fails for lack of rich metadata. -/
def paintswapHelpMessage : String :=
  "Cannot use paintswap metadata without rich_metadata!\nPlease set it to true in the config file."

/-- The observable outcome of a completed `run`: the final loop state and the
user-facing messages printed by the post-processing stage. -/
structure RunOutput where
  state : RunState
  messages : List String
deriving DecidableEq, Repr

/-- `run` end to end: the main loop, then the rich-metadata stage (external
collaborator, modelled by whether it produced the files the rarity-rank stage
reads), then the paintswap stage with its `except FileNotFoundError`
handler. -/
def runFull (cfg : RunConfig) (draws : List Combination) :
    Except String RunOutput :=
  match runMain cfg draws with
  | Except.error e => Except.error e
  | Except.ok st =>
    let richProduced := cfg.richMetadata
    let lastEdition := if cfg.richMetadata then startEdition cfg else st.edition
    if cfg.paintswapMetadata then
      match rrCalculateMean richProduced cfg.amount lastEdition with
      | Except.error _ => Except.ok { state := st, messages := [paintswapHelpMessage] }
      | Except.ok _ => Except.ok { state := st, messages := [] }
    else Except.ok { state := st, messages := [] }

/-- `runMain` with the error case collapsed to the initial state, used to
name the final state of a concrete successful run. -/
def runMainOr (cfg : RunConfig) (draws : List Combination) : RunState :=
  match runMain cfg draws with
  | Except.ok st => st
  | Except.error _ => initState cfg

/-- Spec-side projection: the parent-directory name of a chosen asset. -/
def choiceParentName : TraitChoice → String
  | TraitChoice.asset p => p.parent
  | TraitChoice.noneTrait => ""

/-- Spec-side projection: the file stem of a chosen asset. -/
def choiceStemName : TraitChoice → String
  | TraitChoice.asset p => p.stem
  | TraitChoice.noneTrait => ""

/-! Concrete fixtures used by the witnesses. -/

def exPathA : AssetPath := { parent := "background", stem := "blue", suffix := ".png" }

def exPathB : AssetPath := { parent := "background", stem := "red", suffix := ".png" }

def exEntryA : DirEntry := { path := exPathA, isFile := true }

def exEntryB : DirEntry := { path := exPathB, isFile := true }

/-- A non-required flat layer whose declared rarities sum to 60. -/
def lcOpt : LayerConf :=
  { name := "background", rarities := [40, 20], required := false,
    types := none, listing := [exEntryA, exEntryB] }

/-- A required flat layer with more rarities than candidates. -/
def lcExtra : LayerConf :=
  { name := "eyes", rarities := [50, 60, 70], required := true,
    types := none, listing := [exEntryA, exEntryB] }

def combA : Combination := [TraitChoice.asset exPathA]

def combB : Combination := [TraitChoice.asset exPathB]

def cfgBg : RunConfig :=
  { amount := 2, idFromOne := false, tokenPref := "Token", description := "desc",
    uriPref := "ipfs://", drawBackground := true, canvasWidth := 8, canvasHeight := 8,
    backgroundColor := "white", richMetadata := false, paintswapMetadata := false,
    layers := [] }

def cfgNoBg : RunConfig :=
  { cfgBg with drawBackground := false }

def cfgPaint : RunConfig :=
  { cfgBg with amount := 1, paintswapMetadata := true }

end ArtEngine

namespace ArtEngine

/-! Helper lemmas. -/

theorem filterMap_attr_eq (l : List (TraitChoice × LayerConf)) :
    (l.filterMap (fun pr =>
      match pr.1 with
      | TraitChoice.noneTrait => none
      | TraitChoice.asset p =>
        some { trait_type := pr.2.name, value := p.parent,
               sub_value := p.stem : AttributeEntry }))
      = (l.filter (fun pr => decide (pr.1 ≠ TraitChoice.noneTrait))).map
          (fun pr =>
            { trait_type := pr.2.name, value := choiceParentName pr.1,
              sub_value := choiceStemName pr.1 }) := by
  induction l with
  | nil => rfl
  | cons a rest ih =>
    obtain ⟨c, lc⟩ := a
    cases c <;>
      simp [List.filterMap_cons, List.filter_cons, choiceParentName, choiceStemName, ih]

theorem compositeLoop_eq_foldl (l : Combination) : ∀ base : PILImage,
    compositeLoop base l = (overlayImages l).foldl PILImage.composite base := by
  induction l with
  | nil => intro base; rfl
  | cons c rest ih =>
    intro base
    cases c <;> simp [compositeLoop, overlayImages, List.filterMap_cons, ih]

theorem normalizeRarities_length (rs : List Int) :
    (normalizeRarities rs).length = rs.length := by
  unfold normalizeRarities
  split <;> simp

theorem alignedRarities_length (lc : LayerConf) :
    (alignedRarities lc).length = (sentinelCandidates lc).length := by
  unfold alignedRarities
  split
  · omega
  · split
    · simp
      omega
    · simp
      omega

/-- Claim C5: after catalog loading the candidate list and the weight list
have equal length; when candidates outnumber weights the weight list is
padded with zeros, and when weights outnumber candidates it is truncated to
the candidate count. -/
theorem aligned_length_spec (lc : LayerConf) :
    (loadLayer lc).1.length = (loadLayer lc).2.length ∧
    ((sentinelRarities lc).length < (sentinelCandidates lc).length →
      alignedRarities lc = sentinelRarities lc
        ++ List.replicate
            ((sentinelCandidates lc).length - (sentinelRarities lc).length) 0) ∧
    ((sentinelCandidates lc).length < (sentinelRarities lc).length →
      alignedRarities lc = (sentinelRarities lc).take (sentinelCandidates lc).length) := by
  refine ⟨?_, ?_, ?_⟩
  · show (sentinelCandidates lc).length = (normalizeRarities (alignedRarities lc)).length
    rw [normalizeRarities_length, alignedRarities_length]
  · intro h
    unfold alignedRarities
    split
    · omega
    · rfl
  · intro h
    unfold alignedRarities
    split
    · omega
    · rw [if_neg
        (by omega : ¬(sentinelRarities lc).length < (sentinelCandidates lc).length)]


/-- Witness for C5: the layer with three rarities and two candidate files has
its weights truncated, and the loader output lists have equal length. -/
theorem aligned_length_spec_witness :
    alignedRarities lcExtra = (sentinelRarities lcExtra).take (sentinelCandidates lcExtra).length :=
  (aligned_length_spec lcExtra).2.2 (by decide)

/-- Claim C4: for a non-required layer the loader appends exactly one
sentinel candidate and one weight equal to 100 minus the sum of the existing
weights, with no clamping. -/
theorem sentinel_append_spec (lc : LayerConf)
    (hreq : lc.required = false)
    (hlen : (rawCandidates lc).length = (rawRarities lc).length) :
    (loadLayer lc).1 = (rawCandidates lc).map TraitChoice.asset ++ [TraitChoice.noneTrait] ∧
    alignedRarities lc = rawRarities lc ++ [100 - (rawRarities lc).sum] := by
  constructor
  · simp [loadLayer, sentinelCandidates, hreq]
  · unfold alignedRarities
    have hc : (sentinelCandidates lc).length = (rawCandidates lc).length + 1 := by
      simp [sentinelCandidates, hreq]
    have hr : sentinelRarities lc = rawRarities lc ++ [100 - (rawRarities lc).sum] := by
      simp [sentinelRarities, hreq]
    have hrl : (sentinelRarities lc).length = (rawRarities lc).length + 1 := by
      rw [hr]; simp
    split
    · exact hr
    · omega

/-- Witness for C4: the non-required layer with rarities summing to 60 gets
the sentinel candidate and a synthesized weight of 40. -/
theorem sentinel_append_spec_witness :
    (loadLayer lcOpt).1
      = (rawCandidates lcOpt).map TraitChoice.asset ++ [TraitChoice.noneTrait] ∧
    alignedRarities lcOpt = rawRarities lcOpt ++ [100 - (rawRarities lcOpt).sum] :=
  sentinel_append_spec lcOpt rfl (by decide)

/-- Claim C6: the emitted metadata record carries the prefixed name, the
configured description, the `uri_prefix`-based image reference, the edition
number, and one attributes entry per non-sentinel layer choice, recording the
layer's declared name as trait type and labels derived from the chosen file
(its parent-directory name and its stem). -/
theorem create_metadata_spec (cfg : RunConfig) (edition : Nat) (fl : Combination) :
    (create_metadata cfg edition fl).name = cfg.tokenPref ++ " #" ++ toString edition ∧
    (create_metadata cfg edition fl).description = cfg.description ∧
    (create_metadata cfg edition fl).image
      = cfg.uriPref ++ "baseURI/" ++ toString edition ++ ".png" ∧
    (create_metadata cfg edition fl).edition = edition ∧
    (create_metadata cfg edition fl).attributes
      = ((fl.zip cfg.layers).filter (fun pr => decide (pr.1 ≠ TraitChoice.noneTrait))).map
          (fun pr =>
            { trait_type := pr.2.name, value := choiceParentName pr.1,
              sub_value := choiceStemName pr.1 }) :=
  ⟨rfl, rfl, rfl, rfl, filterMap_attr_eq (fl.zip cfg.layers)⟩

/-- Claim C7: with draw-background the compositor starts from a fresh RGBA
canvas of the configured size and color and alpha-composites every
non-sentinel layer onto it in order; without it the first layer's image is
the base canvas and each remaining non-sentinel layer is composited onto it
in order. -/
theorem create_image_spec (cfg : RunConfig) (fl : Combination) :
    (cfg.drawBackground = true →
      create_image cfg fl
        = Except.ok ((overlayImages fl).foldl PILImage.composite
            (PILImage.newRGBA cfg.canvasWidth cfg.canvasHeight cfg.backgroundColor))) ∧
    (cfg.drawBackground = false →
      ∀ (p : AssetPath) (rest : Combination), fl = TraitChoice.asset p :: rest →
        create_image cfg fl
          = Except.ok ((overlayImages rest).foldl PILImage.composite
              (PILImage.opened p))) := by
  constructor
  · intro h
    simp [create_image, h, compositeLoop_eq_foldl]
  · intro h p rest hfl
    subst hfl
    simp [create_image, h, openConvert, compositeLoop_eq_foldl]

/-- Witness for C7: a concrete background-canvas compositing run. -/
theorem create_image_spec_witness :
    create_image cfgBg [TraitChoice.asset exPathA, TraitChoice.noneTrait]
      = Except.ok ((overlayImages [TraitChoice.asset exPathA, TraitChoice.noneTrait]).foldl
          PILImage.composite
          (PILImage.newRGBA cfgBg.canvasWidth cfgBg.canvasHeight cfgBg.backgroundColor)) :=
  (create_image_spec cfgBg [TraitChoice.asset exPathA, TraitChoice.noneTrait]).1 rfl

/-- Claim C10: with draw-background disabled a sentinel first choice is not
skipped — the compositor tries to open the sentinel as a file and the run
aborts — while the sentinel-skip applies to every overlay position. -/
theorem sentinel_base_not_skipped (cfg : RunConfig) (rest : Combination)
    (hbg : cfg.drawBackground = false) :
    create_image cfg (TraitChoice.noneTrait :: rest)
      = Except.error "FileNotFoundError: None" ∧
    (∀ (c : TraitChoice) (tail : Combination),
      create_image cfg (c :: TraitChoice.noneTrait :: tail)
        = create_image cfg (c :: tail)) ∧
    (∀ (desired : Nat) (st : RunState) (moreDraws : List Combination),
      st.edition < desired → (TraitChoice.noneTrait :: rest) ∉ st.dnaSet →
      runLoop cfg desired ((TraitChoice.noneTrait :: rest) :: moreDraws) st
        = Except.error "FileNotFoundError: None") := by
  refine ⟨?_, ?_, ?_⟩
  · simp [create_image, hbg, openConvert]
  · intro c tail
    cases c <;> simp [create_image, hbg, openConvert, compositeLoop]
  · intro desired st moreDraws hlt hmem
    rw [runLoop, if_pos hlt, if_neg hmem]
    simp [create_image, hbg, openConvert]

/-- Witness for C10: a concrete no-background run whose first layer choice is
the sentinel fails to open it. -/
theorem sentinel_base_not_skipped_witness :
    create_image cfgNoBg (TraitChoice.noneTrait :: [TraitChoice.asset exPathB])
      = Except.error "FileNotFoundError: None" :=
  (sentinel_base_not_skipped cfgNoBg [TraitChoice.asset exPathB] rfl).1

theorem storedRaritiesAfter_length_lt (lc : LayerConf)
    (hflat : lc.types = none) (hreq : lc.required = false) :
    lc.rarities.length < (storedRaritiesAfter lc).length := by
  have hraw : rawRarities lc = lc.rarities := by simp [rawRarities, hflat]
  have hsr : sentinelRarities lc = lc.rarities ++ [100 - lc.rarities.sum] := by
    simp [sentinelRarities, hreq, hraw]
  simp only [storedRaritiesAfter, hflat]
  split
  · simp [hsr]
  · simp [hsr]

theorem storedRaritiesAfter_ne (lc : LayerConf)
    (hflat : lc.types = none) (hreq : lc.required = false) :
    storedRaritiesAfter lc ≠ lc.rarities := by
  intro heq
  have h := storedRaritiesAfter_length_lt lc hflat hreq
  rw [heq] at h
  omega

/-- Claim C8: loading a flat layer mutates only the run's in-memory
configuration: the loader appends the sentinel weight and any zero padding to
the stored rarities list in place, so for a non-required flat layer the
stored list after a call is the original plus the sentinel weight plus the
padding — never the original — and a repeated call on the mutated
configuration changes the list again; a required flat layer with at least as
many stored weights as candidates is left unchanged. -/
theorem stored_rarities_spec (lc : LayerConf) (hflat : lc.types = none) :
    (lc.required = false →
      storedRaritiesAfter lc
        = (lc.rarities ++ [100 - lc.rarities.sum])
            ++ List.replicate
                ((sentinelCandidates lc).length - (lc.rarities.length + 1)) 0 ∧
      storedRaritiesAfter lc ≠ lc.rarities ∧
      storedRaritiesAfter { lc with rarities := storedRaritiesAfter lc }
        ≠ storedRaritiesAfter lc) ∧
    (lc.required = true → (sentinelCandidates lc).length ≤ lc.rarities.length →
      storedRaritiesAfter lc = lc.rarities) := by
  constructor
  · intro hreq
    have hraw : rawRarities lc = lc.rarities := by simp [rawRarities, hflat]
    have hsr : sentinelRarities lc = lc.rarities ++ [100 - lc.rarities.sum] := by
      simp [sentinelRarities, hreq, hraw]
    have hsrl : (sentinelRarities lc).length = lc.rarities.length + 1 := by
      rw [hsr]; simp
    refine ⟨?_, storedRaritiesAfter_ne lc hflat hreq, ?_⟩
    · simp only [storedRaritiesAfter, hflat]
      split
      · rw [hsr]
        simp
      · have hz : (sentinelCandidates lc).length - (lc.rarities.length + 1) = 0 := by
          omega
        rw [hz, hsr]
        simp
    · have h2 := storedRaritiesAfter_ne
        { lc with rarities := storedRaritiesAfter lc } hflat hreq
      exact h2
  · intro hreq hle
    have hsr : sentinelRarities lc = lc.rarities := by
      simp [sentinelRarities, hreq, rawRarities, hflat]
    simp only [storedRaritiesAfter, hflat]
    rw [if_neg (by rw [hsr]; omega)]
    exact hsr

/-- Witness for C8: the non-required flat layer with rarities `[40, 20]` has
its stored list grown by the sentinel weight, in place, on every call. -/
theorem stored_rarities_spec_witness :
    storedRaritiesAfter lcOpt
      = (lcOpt.rarities ++ [100 - lcOpt.rarities.sum])
          ++ List.replicate
              ((sentinelCandidates lcOpt).length - (lcOpt.rarities.length + 1)) 0 ∧
    storedRaritiesAfter lcOpt ≠ lcOpt.rarities ∧
    storedRaritiesAfter { lcOpt with rarities := storedRaritiesAfter lcOpt }
      ≠ storedRaritiesAfter lcOpt :=
  (stored_rarities_spec lcOpt rfl).1 rfl

/-- Claim C1: no two accepted combinations are structurally equal (the DNA
set stays duplicate-free), and a draw that hits the set discards the whole
trial — the loop state is untouched, so no artifact is written and the
edition counter does not move — before the full multi-layer draw re-runs. -/
theorem dedup_spec (cfg : RunConfig) (desired : Nat) :
    (∀ (d : Combination) (rest : List Combination) (st : RunState),
      st.edition < desired → d ∈ st.dnaSet →
      runLoop cfg desired (d :: rest) st = runLoop cfg desired rest st) ∧
    (∀ (draws : List Combination) (st st2 : RunState),
      runLoop cfg desired draws st = Except.ok st2 →
      st.dnaSet.Nodup → st2.dnaSet.Nodup) := by
  constructor
  · intro d rest st hlt hmem
    rw [runLoop, if_pos hlt, if_pos hmem]
  · intro draws
    induction draws with
    | nil =>
      intro st st2 h hnd
      by_cases hlt : st.edition < desired
      · simp [runLoop, if_pos hlt] at h
      · rw [runLoop, if_neg hlt] at h
        cases h
        exact hnd
    | cons d rest ih =>
      intro st st2 h hnd
      by_cases hlt : st.edition < desired
      · by_cases hmem : d ∈ st.dnaSet
        · rw [runLoop, if_pos hlt, if_pos hmem] at h
          exact ih st st2 h hnd
        · cases himg : create_image cfg d with
          | error e => simp [runLoop, if_pos hlt, if_neg hmem, himg] at h
          | ok img =>
            simp only [runLoop, if_pos hlt, if_neg hmem, himg] at h
            refine ih _ st2 h ?_
            simp [List.nodup_append, hnd, hmem]
      · rw [runLoop, if_neg hlt] at h
        cases h
        exact hnd

/-- Witness for C1: a duplicate draw is discarded without changing the loop
state. -/
theorem dedup_spec_witness :
    runLoop cfgBg 2 [combA, combB]
        { dnaSet := [combA], edition := 1,
          imageFiles := [], jsonFiles := [] }
      = runLoop cfgBg 2 [combB]
          { dnaSet := [combA], edition := 1,
            imageFiles := [], jsonFiles := [] } :=
  (dedup_spec cfgBg 2).1 combA [combB]
    { dnaSet := [combA], edition := 1, imageFiles := [], jsonFiles := [] }
    (by decide) (by decide)

theorem runLoop_ok_spec (cfg : RunConfig) (desired : Nat) :
    ∀ (draws : List Combination) (st st2 : RunState),
      runLoop cfg desired draws st = Except.ok st2 →
      st.edition ≤ desired →
      st2.edition = desired ∧
      st2.imageFiles.map Prod.fst
        = st.imageFiles.map Prod.fst
            ++ List.range' st.edition (desired - st.edition) ∧
      st2.jsonFiles.map Prod.fst
        = st.jsonFiles.map Prod.fst
            ++ List.range' st.edition (desired - st.edition) ∧
      (∀ (e : Nat) (md : MetadataRecord),
        (e, md) ∈ st2.jsonFiles → (e, md) ∈ st.jsonFiles ∨ md.edition = e) := by
  intro draws
  induction draws with
  | nil =>
    intro st st2 h hle
    by_cases hlt : st.edition < desired
    · simp [runLoop, if_pos hlt] at h
    · rw [runLoop, if_neg hlt] at h
      cases h
      have hed : st.edition = desired := by omega
      refine ⟨hed, ?_, ?_, fun e md hmd => Or.inl hmd⟩
      · rw [hed]
        simp
      · rw [hed]
        simp
  | cons d rest ih =>
    intro st st2 h hle
    by_cases hlt : st.edition < desired
    · by_cases hmem : d ∈ st.dnaSet
      · rw [runLoop, if_pos hlt, if_pos hmem] at h
        exact ih st st2 h hle
      · cases himg : create_image cfg d with
        | error e => simp [runLoop, if_pos hlt, if_neg hmem, himg] at h
        | ok img =>
          simp only [runLoop, if_pos hlt, if_neg hmem, himg] at h
          obtain ⟨h1, h2, h3, h4⟩ := ih _ st2 h (by simp; omega)
          have hk : desired - st.edition = (desired - (st.edition + 1)) + 1 := by
            omega
          refine ⟨h1, ?_, ?_, ?_⟩
          · have h2' : st2.imageFiles.map Prod.fst
                = (st.imageFiles.map Prod.fst ++ [st.edition])
                    ++ List.range' (st.edition + 1) (desired - (st.edition + 1)) := by
              simpa using h2
            rw [h2', List.append_assoc, hk, List.range'_succ]
            rfl
          · have h3' : st2.jsonFiles.map Prod.fst
                = (st.jsonFiles.map Prod.fst ++ [st.edition])
                    ++ List.range' (st.edition + 1) (desired - (st.edition + 1)) := by
              simpa using h3
            rw [h3', List.append_assoc, hk, List.range'_succ]
            rfl
          · intro e md hmd
            rcases h4 e md hmd with hin | hed
            · have hin' : (e, md) ∈ st.jsonFiles
                  ∨ (e, md) = (st.edition, create_metadata cfg st.edition d) := by
                simpa using hin
              rcases hin' with hmem2 | heq
              · exact Or.inl hmem2
              · right
                have he : e = st.edition := congrArg Prod.fst heq
                have hm : md = create_metadata cfg st.edition d :=
                  congrArg Prod.snd heq
                rw [hm]
                exact he.symm
            · exact Or.inr hed
    · rw [runLoop, if_neg hlt] at h
      cases h
      have hed : st.edition = desired := by omega
      refine ⟨hed, ?_, ?_, fun e md hmd => Or.inl hmd⟩
      · rw [hed]
        simp
      · rw [hed]
        simp

/-- Claim C2: a terminating run with `amount = N` writes image and JSON
artifacts keyed by exactly the contiguous editions `0..N-1` (or `1..N` with
`id_from_one`), with no gaps or repeats, and every JSON document's `edition`
field equals the number in its filename. -/
theorem editions_contiguous (cfg : RunConfig) (draws : List Combination)
    (st2 : RunState) (h : runMain cfg draws = Except.ok st2) :
    st2.imageFiles.map Prod.fst = List.range' (startEdition cfg) cfg.amount ∧
    st2.jsonFiles.map Prod.fst = List.range' (startEdition cfg) cfg.amount ∧
    (∀ (e : Nat) (md : MetadataRecord), (e, md) ∈ st2.jsonFiles → md.edition = e) := by
  have hle : (initState cfg).edition ≤ desiredAmount cfg := by
    cases hid : cfg.idFromOne <;>
      simp [initState, startEdition, desiredAmount, hid]
  have hamt : desiredAmount cfg - (initState cfg).edition = cfg.amount := by
    cases hid : cfg.idFromOne <;>
      simp [initState, startEdition, desiredAmount, hid]
  obtain ⟨h1, h2, h3, h4⟩ :=
    runLoop_ok_spec cfg (desiredAmount cfg) draws (initState cfg) st2 h hle
  refine ⟨?_, ?_, ?_⟩
  · rw [h2, hamt]
    simp [initState, startEdition]
  · rw [h3, hamt]
    simp [initState, startEdition]
  · intro e md hmd
    rcases h4 e md hmd with hin | hed
    · simp [initState] at hin
    · exact hed

/-- Witness for C2: a concrete two-token run numbers its image artifacts
0 and 1. -/
theorem editions_contiguous_witness :
    (runMainOr cfgBg [combA, combB]).imageFiles.map Prod.fst
      = List.range' (startEdition cfgBg) cfgBg.amount :=
  (editions_contiguous cfgBg [combA, combB]
    (runMainOr cfgBg [combA, combB]) (by rfl)).1

/-- Claim C9: with `paintswap_metadata` enabled but rich metadata never
produced, the rarity-rank collaborator's missing-precondition failure is
caught: the run prints the instructional message and completes instead of
crashing. -/
theorem paintswap_fallback (cfg : RunConfig) (draws : List Combination)
    (st : RunState)
    (hps : cfg.paintswapMetadata = true) (hrm : cfg.richMetadata = false)
    (hmain : runMain cfg draws = Except.ok st) :
    runFull cfg draws
      = Except.ok { state := st, messages := [paintswapHelpMessage] } := by
  simp [runFull, hmain, hps, hrm, rrCalculateMean]

/-- Witness for C9: a concrete one-token run with `paintswap_metadata` and
without `rich_metadata` completes with the instructional message. -/
theorem paintswap_fallback_witness :
    runFull cfgPaint [combA]
      = Except.ok { state := runMainOr cfgPaint [combA],
                    messages := [paintswapHelpMessage] } :=
  paintswap_fallback cfgPaint [combA] (runMainOr cfgPaint [combA])
    rfl rfl (by rfl)

end ArtEngine
